import Mathlib

/-!
Verification of the slide-extraction pipeline of `audio2note`.

The definitions below are shallow embeddings of the Python sources:
  * `backend/app/services/ocr_deduper.py`   (L3 semantic deduplication)
  * `backend/app/services/gpu_frame_processor.py` (L1/L2 scene scan)
  * `backend/app/services/video_service.py` (pipeline orchestration)
  * `backend/app/utils/ffmpeg_utils.py`     (crop alignment)
  * `backend/app/core/task_manager.py`      (task registry)

Floats are modelled as exact rationals (`ℚ`); all constants used in the
theorems (0, 1, 0.9 = 9/10, 1.5 = 3/2, ...) are exactly representable as
binary floats, so the comparisons proved here agree with the float
comparisons performed by the code at the evaluated points.
-/

namespace Audio2Note

/-! ### Gestalt pattern matching (model of Python `difflib.SequenceMatcher`)

`calculate_similarity` in `ocr_deduper.py` calls
`SequenceMatcher(None, a, b).ratio()`.  The model below follows the
stdlib algorithm with junk handling disabled (no `isjunk` argument is
passed; the `autojunk` popularity heuristic does not change the values
proved here, see `gestaltSimilarity_self`): the longest matching block is
found, the algorithm recurses on the pieces to its left and right, and
the ratio is `2*M/T` where `M` is the total size of the matching blocks
and `T` the total length (with `T = 0` giving `1.0`). -/

/-- Length of the longest common prefix of two character lists. -/
def commonPrefixLength : List Char → List Char → Nat
  | a :: as, b :: bs => if a = b then commonPrefixLength as bs + 1 else 0
  | _, _ => 0

/-- All candidate matching blocks `(i, j, k)` where `k` is the length of the
common run of `a` starting at `i` and `b` starting at `j`. -/
def flmCandidates (a b : List Char) : List (Nat × Nat × Nat) :=
  (List.range (a.length + 1)).flatMap fun i =>
    (List.range (b.length + 1)).map fun j =>
      (i, j, commonPrefixLength (a.drop i) (b.drop j))

/-- Keep the earlier block unless the new one is strictly longer
(`find_longest_match` returns the earliest maximal block). -/
def flmPick (x y : Nat × Nat × Nat) : Nat × Nat × Nat :=
  if y.2.2 > x.2.2 then y else x

/-- Model of `SequenceMatcher.find_longest_match` over the whole strings:
the earliest (in `a`, then in `b`) maximal matching block. -/
def findLongestMatch (a b : List Char) : Nat × Nat × Nat :=
  (flmCandidates a b).foldl flmPick (0, 0, commonPrefixLength a b)

/-- Total size of the matching blocks of `SequenceMatcher.get_matching_blocks`:
recurse on both sides of the longest matching block.  The fuel argument only
bounds the recursion depth; `totalMatches` supplies `a.length + 1`, which is
never exhausted because each recursive call strictly shortens `a`
(see `findLongestMatch_bounds`). -/
def totalMatchesGo : Nat → List Char → List Char → Nat
  | 0, _, _ => 0
  | fuel + 1, a, b =>
    if (findLongestMatch a b).2.2 = 0 then 0
    else
      totalMatchesGo fuel (a.take (findLongestMatch a b).1)
          (b.take (findLongestMatch a b).2.1) +
        (findLongestMatch a b).2.2 +
        totalMatchesGo fuel (a.drop ((findLongestMatch a b).1 + (findLongestMatch a b).2.2))
          (b.drop ((findLongestMatch a b).2.1 + (findLongestMatch a b).2.2))

/-- Total size of the matching blocks of two character lists. -/
def totalMatches (a b : List Char) : Nat :=
  totalMatchesGo (a.length + 1) a b

/-- `SequenceMatcher.ratio`: `2*M/T`, with the `T = 0` case defined as `1.0`. -/
def gestaltSimilarity (a b : List Char) : ℚ :=
  if a.length + b.length = 0 then 1
  else (2 * totalMatches a b : ℚ) / (a.length + b.length)

/-- Preprocessing in `calculate_similarity`: lowercase, then remove all
whitespace (Python `"".join(text.lower().split())`). -/
def pyClean (s : String) : List Char :=
  (s.toList.map Char.toLower).filter fun c => !c.isWhitespace

/-- `OCRDeduper.calculate_similarity` (ocr_deduper.py, lines 215-247):
returns 0 when either side is the empty string, otherwise the Gestalt
ratio of the cleaned texts. -/
def calculate_similarity (text1 text2 : String) : ℚ :=
  if text1 = "" ∨ text2 = "" then 0
  else gestaltSimilarity (pyClean text1) (pyClean text2)

/-! ### L3 semantic deduplication (`OCRDeduper`, ocr_deduper.py)

The OCR engine itself is external; a `BestShot` candidate reaching L3 is
therefore modelled by whether its frame could be re-read from the source
video (`readable`) and by the text the OCR engine extracted from it. -/

/-- The mutable state of `OCRDeduper`: the threshold fixed at construction
and the `_last_saved_text` memory. -/
structure DedupState where
  similarity_threshold : ℚ
  lastSavedText : Option String
deriving DecidableEq

/-- `OCRDeduper.__init__` followed by `reset()`: memory empty. -/
def OCRDeduper_init (threshold : ℚ) : DedupState :=
  ⟨threshold, none⟩

/-- `OCRDeduper.is_duplicate` (lines 249-286), with the OCR call abstracted
into the given `current_text`: returns `(is_dup, current_text)` and the
state after the call (the memory is updated on the first frame and on
every non-duplicate). -/
def is_duplicate (st : DedupState) (current_text : String) :
    Bool × String × DedupState :=
  match st.lastSavedText with
  | none => (false, current_text, { st with lastSavedText := some current_text })
  | some last =>
    if calculate_similarity last current_text > st.similarity_threshold then
      (true, current_text, st)
    else
      (false, current_text, { st with lastSavedText := some current_text })

/-- `OCRDeduper.mark_as_saved` (lines 288-297). -/
def mark_as_saved (st : DedupState) (text : String) : DedupState :=
  { st with lastSavedText := some text }

/-- A `BestShot` candidate as seen by the L3 loop of
`VideoService._extract_ppt_gpu_pipeline`: whether the corresponding frame
of the original video could be read, and its OCR text. -/
structure Candidate where
  readable : Bool
  text : String
deriving DecidableEq

/-- State of the loop body of `_extract_ppt_gpu_pipeline` (video_service.py,
lines 587-651): the deduper, the `saved_count` counter, and the slides
added to the `Presentation` so far (each slide is recorded by the OCR text
of the frame placed on it). -/
structure PipelineState where
  deduper : DedupState
  saved_count : Nat
  slides : List String
deriving DecidableEq

/-- One iteration of the `for best_shot in ...` loop: skip unreadable
frames, run `is_duplicate`, and on acceptance save a slide, bump
`saved_count` and call `mark_as_saved`. -/
def pipelineStep (acc : PipelineState) (c : Candidate) : PipelineState :=
  if !c.readable then acc
  else
    let r := is_duplicate acc.deduper c.text
    if r.1 then { acc with deduper := r.2.2 }
    else
      { deduper := mark_as_saved r.2.2 r.2.1
        saved_count := acc.saved_count + 1
        slides := acc.slides ++ [r.2.1] }

/-- Loop state at entry: `VideoService.__init__` constructs
`OCRDeduper(similarity_threshold=0.90)` and the pipeline calls `reset()`;
no slide saved yet. -/
def pipelineInit : PipelineState :=
  ⟨OCRDeduper_init (9 / 10), 0, []⟩

/-- `VideoService._extract_ppt_gpu_pipeline` after L1/L2: folds the L3 loop
over the candidates and saves the PPTX only when `saved_count > 0`
(`prs.save` and the returned path), otherwise returns `None`. -/
def extract_ppt_gpu_pipeline (cs : List Candidate) :
    PipelineState × Option (List String) :=
  (cs.foldl pipelineStep pipelineInit,
    if (cs.foldl pipelineStep pipelineInit).saved_count > 0 then
      some (cs.foldl pipelineStep pipelineInit).slides
    else none)

/-! ### L1/L2 scene scan (`GPUFrameProcessor.extract_best_shots`,
gpu_frame_processor.py, lines 216-381)

A decoded frame is a pair of its decoder-reported timestamp (seconds) and
an abstract payload `α`; the GPU kernels `compute_frame_difference` (MAD)
and `compute_laplacian_sharpness` are abstracted as functions `mad` and
`sharp` on payloads. -/

/-- The `BestShot` dataclass. -/
structure BestShot where
  timestamp : ℚ
  frame_index : Nat
  sharpness_score : ℚ
  scene_start_ts : ℚ
  scene_end_ts : ℚ
deriving DecidableEq

/-- The scene state machine of `extract_best_shots`. -/
structure ScanState (α : Type) where
  prev : Option α
  scene_start_ts : ℚ
  scene_best_ts : ℚ
  scene_best_frame_idx : Nat
  scene_best_sharpness : ℚ
  out : List BestShot

/-- Initial scan state (lines 269-273). -/
def scanInit (α : Type) : ScanState α :=
  ⟨none, 0, 0, 0, -1, []⟩

/-- Loop body for one sampled frame `(frame_idx, current_ts, frame)`:
first-frame initialization, scene-switch detection with the
`min_scene_duration` filter, and within-scene champion update. -/
def shotStep (mad : α → α → ℚ) (sharp : α → ℚ)
    (diff_threshold min_scene_duration : ℚ)
    (st : ScanState α) (item : Nat × ℚ × α) : ScanState α :=
  let idx := item.1
  let ts := item.2.1
  let fr := item.2.2
  let s := sharp fr
  match st.prev with
  | none =>
    { st with
      prev := some fr
      scene_best_sharpness := s
      scene_best_ts := ts
      scene_best_frame_idx := idx }
  | some p =>
    if mad p fr > diff_threshold then
      let out' :=
        if ts - st.scene_start_ts ≥ min_scene_duration then
          st.out ++ [⟨st.scene_best_ts, st.scene_best_frame_idx,
            st.scene_best_sharpness, st.scene_start_ts, ts⟩]
        else st.out
      ⟨some fr, ts, ts, idx, s, out'⟩
    else if s > st.scene_best_sharpness then
      { st with
        prev := some fr
        scene_best_sharpness := s
        scene_best_ts := ts
        scene_best_frame_idx := idx }
    else
      { st with prev := some fr }

/-- The `frame_idx % frame_sample_interval == 0` sampling of the decoded
stream (the `max 1` mirrors `max(1, int(fps * sample_interval))`). -/
def sampledFrames (α : Type) (frames : List (ℚ × α)) (k : Nat) :
    List (Nat × ℚ × α) :=
  frames.enum.filter fun p => p.1 % max 1 k = 0

/-- Closing of the terminal scene (lines 357-372): `final_ts` is the decoder
position after the stream ends and `duration` the metadata duration
`total_frames / fps`; the terminal scene length is
`final_ts - scene_start_ts` when `final_ts > scene_start_ts` and
`duration - scene_start_ts` otherwise. -/
def closeTerminalScene (min_scene_duration final_ts duration : ℚ)
    (st : ScanState α) : List BestShot :=
  if (if final_ts > st.scene_start_ts then final_ts - st.scene_start_ts
      else duration - st.scene_start_ts) ≥ min_scene_duration then
    st.out ++ [⟨st.scene_best_ts, st.scene_best_frame_idx,
      st.scene_best_sharpness, st.scene_start_ts, final_ts⟩]
  else st.out

/-- `extract_best_shots`: fold the scene state machine over the sampled
frames, then close the terminal scene. -/
def extract_best_shots (mad : α → α → ℚ) (sharp : α → ℚ)
    (diff_threshold min_scene_duration : ℚ) (k : Nat)
    (frames : List (ℚ × α)) (final_ts duration : ℚ) : List BestShot :=
  closeTerminalScene min_scene_duration final_ts duration
    ((sampledFrames α frames k).foldl
      (shotStep mad sharp diff_threshold min_scene_duration) (scanInit α))

/-! ### ROI locator (`VideoService._locate_ppt_region`, video_service.py,
lines 234-335)

OpenCV is external: a sampled frame is modelled by its pixel area and the
list of external contours found in its edge map, each contour carrying its
`cv2.contourArea`, the vertex count of its Douglas-Peucker approximation,
and its axis-aligned bounding rectangle. -/

/-- A contour as consumed by the locator loop. -/
structure Contour where
  area : ℚ
  approx_len : Nat
  bbox : Nat × Nat × Nat × Nat
deriving DecidableEq

/-- One successfully read sample frame: its pixel area
(`frame.shape[0] * frame.shape[1]`) and its contours. -/
structure SampleFrame where
  frame_area : ℚ
  contours : List Contour
deriving DecidableEq

/-- Stable insertion into a list sorted by decreasing area (a contour is
placed after the existing contours of equal area, as Python's stable
`sorted` does). -/
def insertByAreaDesc (c : Contour) : List Contour → List Contour
  | [] => [c]
  | d :: rest => if d.area < c.area then c :: d :: rest else d :: insertByAreaDesc c rest

/-- Model of `sorted(contours, key=cv2.contourArea, reverse=True)`:
stable sort by decreasing area. -/
def sortByAreaDesc : List Contour → List Contour
  | [] => []
  | c :: rest => insertByAreaDesc c (sortByAreaDesc rest)

/-- `sorted(...)[:5]`: the five largest contours. -/
def topFiveContours (f : SampleFrame) : List Contour :=
  (sortByAreaDesc f.contours).take 5

/-- Acceptance test of the inner loop (line 319):
`len(approx) == 4 and area_ratio > 0.1`. -/
def acceptContour (frame_area : ℚ) (c : Contour) : Prop :=
  c.approx_len = 4 ∧ c.area / frame_area > 1 / 10

instance (frame_area : ℚ) (c : Contour) : Decidable (acceptContour frame_area c) := by
  unfold acceptContour
  infer_instance

/-- The inner `for c in contours` loop: return the bounding rectangle of
the first accepted contour. -/
def findAcceptedContour (frame_area : ℚ) :
    List Contour → Option (Nat × Nat × Nat × Nat)
  | [] => none
  | c :: rest =>
    if acceptContour frame_area c then some c.bbox
    else findAcceptedContour frame_area rest

/-- The outer `for point in sample_points` loop of `_locate_ppt_region`
over the successfully read sample frames: the first frame yielding an
accepted contour determines the ROI; otherwise `None`. -/
def locate_ppt_region : List SampleFrame → Option (Nat × Nat × Nat × Nat)
  | [] => none
  | f :: rest =>
    match findAcceptedContour f.frame_area (topFiveContours f) with
    | some b => some b
    | none => locate_ppt_region rest

/-! ### Crop alignment (C7)

Three call sites pass an ROI to the external tool's `crop` filter. -/

/-- `VideoService._crop_video_ffmpeg` (video_service.py, lines 356-380):
`x, y` floored to even, `w, h` floored to multiples of 16 and then clamped
to at least 2, before building `crop=w:h:x:y`. -/
def align_crop_main (x y w h : Nat) : Nat × Nat × Nat × Nat :=
  (x / 2 * 2, y / 2 * 2, max 2 (w / 16 * 16), max 2 (h / 16 * 16))

/-- `generate_lightweight_video` (ffmpeg_utils.py, lines 93-110): all four
components floored to even; no clamp. -/
def align_crop_lightweight (x y w h : Nat) : Nat × Nat × Nat × Nat :=
  (x / 2 * 2, y / 2 * 2, w / 2 * 2, h / 2 * 2)

/-- `extract_frame_at_timestamp` (ffmpeg_utils.py, lines 346-354): all four
components floored to even; no clamp. -/
def align_crop_extract_frame (x y w h : Nat) : Nat × Nat × Nat × Nat :=
  (x / 2 * 2, y / 2 * 2, w / 2 * 2, h / 2 * 2)

/-! ### Task registry (`task_manager.py`)

The module-level `tasks` dict is modelled as an association list from task
id to record; the three mutators below return the new registry. -/

/-- `TaskStatus` enum. -/
inductive TaskStatus where
  | pending
  | processing
  | completed
  | failed
deriving DecidableEq

/-- One entry of the `tasks` dict. -/
structure TaskRec where
  status : TaskStatus
  progress : Int
  message : String
  result_url : Option String
  transcript_url : Option String
  error : Option String
deriving DecidableEq

/-- The in-memory registry. -/
abbrev TaskRegistry := List (String × TaskRec)

/-- Python `task_id in tasks`. -/
def containsTask (m : TaskRegistry) (task_id : String) : Bool :=
  (m.lookup task_id).isSome

/-- In-place mutation of `tasks[task_id]`. -/
def updateEntry (m : TaskRegistry) (task_id : String) (f : TaskRec → TaskRec) :
    TaskRegistry :=
  m.map fun p => if p.1 = task_id then (p.1, f p.2) else p

/-- `update_task_progress` (task_manager.py, lines 88-126): silently returns
on an unknown id; otherwise sets `progress`, sets `message` when truthy,
sets `status` when given else auto-promotes `pending` to `processing`. -/
def update_task_progress (m : TaskRegistry) (task_id : String)
    (progress : Int) (message : Option String) (status : Option TaskStatus) :
    TaskRegistry :=
  if containsTask m task_id then
    updateEntry m task_id fun r =>
      let r1 := { r with progress := progress }
      let r2 := match message with
        | some msg => if msg = "" then r1 else { r1 with message := msg }
        | none => r1
      match status with
      | some s => { r2 with status := s }
      | none =>
        if r2.status = TaskStatus.pending then
          { r2 with status := TaskStatus.processing }
        else r2
  else m

/-- `complete_task` (lines 129-159): silently returns on an unknown id;
otherwise marks completed at 100% and binds the result URLs. -/
def complete_task (m : TaskRegistry) (task_id : String)
    (result_url : String) (transcript_url : Option String) : TaskRegistry :=
  if containsTask m task_id then
    updateEntry m task_id fun r =>
      let r1 := { r with
        status := TaskStatus.completed
        progress := 100
        message := "任务完成"
        result_url := some result_url }
      match transcript_url with
      | some t => if t = "" then r1 else { r1 with transcript_url := some t }
      | none => r1
  else m

/-- `fail_task` (lines 162-182): silently returns on an unknown id;
otherwise marks failed with the error message. -/
def fail_task (m : TaskRegistry) (task_id : String) (error_msg : String) :
    TaskRegistry :=
  if containsTask m task_id then
    updateEntry m task_id fun r =>
      { r with
        status := TaskStatus.failed
        error := some error_msg
        message := "任务失败: " ++ error_msg }
  else m

/-! ### Progress percents reported by `VideoService.process` (C5)

Only the percent values handed to `update_task_progress` are modelled.
The funnel stage is abstracted as the chronological list of its events:
each `progress p` is an invocation of the L1/L2 progress callback with
integer percent `p`, and each `candidate` is a `BestShot` arriving at the
L3 loop (readable tells whether the original frame could be re-read).
The NVENC crop path is taken (the CPU fallback adds further reports in
`[10, 30]` and does not affect the theorems below). -/

/-- A funnel-stage event as interleaved by the generator. -/
inductive FunnelEvent where
  | progress (percent : Int)
  | candidate (readable : Bool) (text : String)
deriving DecidableEq

/-- `progress_callback` of `_extract_ppt_gpu_pipeline` (lines 591-594):
`30 + int(percent * 0.4)`.  `int(percent * 0.4)` is modelled by the exact
truncation `(2 * percent).tdiv 5`, which agrees with the float computation
for every percent of magnitude below `10^6`. -/
def funnel_progress_percent (p : Int) : Int :=
  30 + (2 * p).tdiv 5

/-- The L3 update (lines 622-626):
`70 + int((processed_shots / max(processed_shots, 1)) * 20)`; the division
is Python float true division, exact here. -/
def l3_progress_percent (processed : Int) : Int :=
  70 + Int.floor ((processed : ℚ) / ((max processed 1 : Int) : ℚ) * 20)

/-- The percents reported while the slide-extraction funnel runs:
the loop counts `processed_shots` and reports the L3 percent for each
readable candidate (before deduplication), interleaved with the mapped
L1/L2 callback reports. -/
def pipeline_percent_trace (evs : List FunnelEvent) : List Int :=
  (evs.foldl (fun (acc : Int × List Int) ev =>
    match ev with
    | FunnelEvent.progress p => (acc.1, acc.2 ++ [funnel_progress_percent p])
    | FunnelEvent.candidate readable _ =>
      let n := acc.1 + 1
      (n, if readable then acc.2 ++ [l3_progress_percent n] else acc.2))
    (0, [])).2

/-- All percents reported by one run of `VideoService.process`
(video_service.py, lines 139-217): 5 and 10 for ROI location and crop,
the funnel trace, then `(85 if PPT enabled else 0) + 5` for transcription
when audio is enabled. -/
def process_percent_trace (enable_ppt enable_audio : Bool)
    (evs : List FunnelEvent) : List Int :=
  (if enable_ppt then [5, 10] ++ pipeline_percent_trace evs else []) ++
  (if enable_audio then [(if enable_ppt then 85 else 0) + 5] else [])


/-! ## Supporting lemmas -/

theorem commonPrefixLength_le_left (a b : List Char) :
    commonPrefixLength a b ≤ a.length := by
  induction a generalizing b with
  | nil => cases b <;> simp [commonPrefixLength]
  | cons x xs ih =>
    cases b with
    | nil => simp [commonPrefixLength]
    | cons y ys =>
      by_cases h : x = y <;> simp [commonPrefixLength, h]
      exact ih ys

theorem commonPrefixLength_le_right (a b : List Char) :
    commonPrefixLength a b ≤ b.length := by
  induction a generalizing b with
  | nil => cases b <;> simp [commonPrefixLength]
  | cons x xs ih =>
    cases b with
    | nil => simp [commonPrefixLength]
    | cons y ys =>
      by_cases h : x = y <;> simp [commonPrefixLength, h]
      exact ih ys

theorem commonPrefixLength_self (a : List Char) :
    commonPrefixLength a a = a.length := by
  induction a with
  | nil => rfl
  | cons x xs ih => simp [commonPrefixLength, ih]

theorem foldl_flmPick_mem (l : List (Nat × Nat × Nat)) (init : Nat × Nat × Nat) :
    l.foldl flmPick init = init ∨ l.foldl flmPick init ∈ l := by
  induction l generalizing init with
  | nil => left; rfl
  | cons c cs ih =>
    rcases ih (flmPick init c) with h | h
    · rw [List.foldl_cons, h]
      unfold flmPick
      by_cases hc : c.2.2 > init.2.2 <;> simp [hc]
    · right
      rw [List.foldl_cons]
      exact List.mem_cons_of_mem _ h

theorem foldl_flmPick_ge (l : List (Nat × Nat × Nat)) (init : Nat × Nat × Nat) :
    init.2.2 ≤ (l.foldl flmPick init).2.2 := by
  induction l generalizing init with
  | nil => exact le_refl _
  | cons c cs ih =>
    rw [List.foldl_cons]
    refine le_trans ?_ (ih (flmPick init c))
    unfold flmPick
    by_cases hc : c.2.2 > init.2.2 <;> simp [hc]
    exact le_of_lt hc

theorem mem_flmCandidates (a b : List Char) (c : Nat × Nat × Nat)
    (hc : c ∈ flmCandidates a b) :
    c.1 ≤ a.length ∧ c.2.1 ≤ b.length ∧
      c.2.2 = commonPrefixLength (a.drop c.1) (b.drop c.2.1) := by
  unfold flmCandidates at hc
  rcases List.mem_flatMap.mp hc with ⟨i, hi, hmem⟩
  rcases List.mem_map.mp hmem with ⟨j, hj, hji⟩
  subst hji
  exact ⟨Nat.lt_succ_iff.mp (List.mem_range.mp hi),
    Nat.lt_succ_iff.mp (List.mem_range.mp hj), rfl⟩

theorem findLongestMatch_bounds (a b : List Char) :
    (findLongestMatch a b).1 + (findLongestMatch a b).2.2 ≤ a.length ∧
      (findLongestMatch a b).2.1 + (findLongestMatch a b).2.2 ≤ b.length := by
  rcases foldl_flmPick_mem (flmCandidates a b) (0, 0, commonPrefixLength a b) with h | h
  · unfold findLongestMatch
    rw [h]
    exact ⟨by simpa using commonPrefixLength_le_left a b,
      by simpa using commonPrefixLength_le_right a b⟩
  · have hm := mem_flmCandidates a b _ h
    unfold findLongestMatch
    constructor
    · have h1 := commonPrefixLength_le_left
        (a.drop ((flmCandidates a b).foldl flmPick (0, 0, commonPrefixLength a b)).1)
        (b.drop ((flmCandidates a b).foldl flmPick (0, 0, commonPrefixLength a b)).2.1)
      rw [← hm.2.2] at h1
      rw [List.length_drop] at h1
      omega
    · have h1 := commonPrefixLength_le_right
        (a.drop ((flmCandidates a b).foldl flmPick (0, 0, commonPrefixLength a b)).1)
        (b.drop ((flmCandidates a b).foldl flmPick (0, 0, commonPrefixLength a b)).2.1)
      rw [← hm.2.2] at h1
      rw [List.length_drop] at h1
      omega

theorem findLongestMatch_self (a : List Char) :
    findLongestMatch a a = (0, 0, a.length) := by
  have hge : a.length ≤ (findLongestMatch a a).2.2 := by
    have := foldl_flmPick_ge (flmCandidates a a) (0, 0, commonPrefixLength a a)
    simpa [findLongestMatch, commonPrefixLength_self] using this
  have hb := findLongestMatch_bounds a a
  have h1 : (findLongestMatch a a).1 = 0 := by omega
  have h2 : (findLongestMatch a a).2.1 = 0 := by omega
  have h3 : (findLongestMatch a a).2.2 = a.length := by omega
  rcases hfl : findLongestMatch a a with ⟨i, j, k⟩
  rw [hfl] at h1 h2 h3
  simp_all

theorem totalMatchesGo_nil (n : Nat) : totalMatchesGo n [] [] = 0 := by
  cases n with
  | zero => rfl
  | succ m =>
    have h : findLongestMatch [] [] = (0, 0, 0) := by decide
    simp [totalMatchesGo, h]

theorem totalMatches_self (a : List Char) : totalMatches a a = a.length := by
  unfold totalMatches
  rw [totalMatchesGo, findLongestMatch_self]
  by_cases h : a.length = 0
  · simp [h]
  · simp only [h, if_false]
    simp [totalMatchesGo_nil]

theorem gestaltSimilarity_self (a : List Char) : gestaltSimilarity a a = 1 := by
  unfold gestaltSimilarity
  rcases Nat.eq_zero_or_pos a.length with h0 | hpos
  · simp [h0]
  · have hne : a.length + a.length ≠ 0 := by omega
    rw [if_neg hne, totalMatches_self]
    have hq : (0 : ℚ) < (a.length : ℚ) := by exact_mod_cast hpos
    rw [div_eq_one_iff_eq (by linarith)]
    ring

theorem calculate_similarity_empty_right (t : String) :
    calculate_similarity t "" = 0 := by
  simp [calculate_similarity]

theorem calculate_similarity_self_of_ne (t : String) (h : t ≠ "") :
    calculate_similarity t t = 1 := by
  unfold calculate_similarity
  rw [if_neg (by simp [h])]
  exact gestaltSimilarity_self _

/-- C4: for every string `x`, `calculate_similarity x x = 1` holds only for
nonempty `x` (the early-exit for falsy arguments takes precedence), while
`calculate_similarity x "" = 0` holds for every `x`. -/
theorem similarity_self_one_and_empty_zero (x : String) :
    (x ≠ "" → calculate_similarity x x = 1) ∧ calculate_similarity x "" = 0 :=
  ⟨calculate_similarity_self_of_ne x, calculate_similarity_empty_right x⟩

/-- C4 counterexample: at `x = ""` both arguments are equal, yet the
similarity is 0, not 1 (the `if not text1 or not text2` guard fires). -/
theorem similarity_empty_self_counterexample :
    calculate_similarity "" "" = 0 ∧ calculate_similarity "" "" ≠ 1 := by
  constructor
  · decide
  · decide

/-- Witness for C4: the theorem applied at the concrete input `"ab"`. -/
theorem similarity_self_one_witness :
    calculate_similarity "ab" "ab" = 1 ∧ calculate_similarity "ab" "" = 0 :=
  ⟨(similarity_self_one_and_empty_zero "ab").1 (by decide),
    (similarity_self_one_and_empty_zero "ab").2⟩

/-! ## L3 deduplication and the pipeline loop (C1, C6, C9) -/

theorem is_duplicate_text (st : DedupState) (t : String) :
    (is_duplicate st t).2.1 = t := by
  unfold is_duplicate
  rcases st with ⟨th, last⟩
  cases last with
  | none => rfl
  | some l =>
    simp only
    split <;> rfl

theorem is_duplicate_threshold (st : DedupState) (t : String) :
    ((is_duplicate st t).2.2).similarity_threshold = st.similarity_threshold := by
  unfold is_duplicate
  rcases st with ⟨th, last⟩
  cases last with
  | none => rfl
  | some l =>
    simp only
    split <;> rfl

theorem is_duplicate_memory (st : DedupState) (t : String) :
    ((is_duplicate st t).2.2).lastSavedText =
      if (is_duplicate st t).1 then st.lastSavedText else some t := by
  unfold is_duplicate
  rcases st with ⟨th, last⟩
  cases last with
  | none => rfl
  | some l =>
    simp only
    split <;> rfl

theorem is_duplicate_empty_not_dup (st : DedupState)
    (h : 0 ≤ st.similarity_threshold) : (is_duplicate st "").1 = false := by
  unfold is_duplicate
  rcases st with ⟨th, last⟩
  cases last with
  | none => rfl
  | some l =>
    simp only [calculate_similarity_empty_right]
    rw [if_neg (by simp at h; exact not_lt.mpr h)]

theorem foldl_pipelineStep_threshold (cs : List Candidate) (st : PipelineState) :
    ((cs.foldl pipelineStep st).deduper).similarity_threshold =
      st.deduper.similarity_threshold := by
  induction cs generalizing st with
  | nil => rfl
  | cons c rest ih =>
    rw [List.foldl_cons, ih]
    unfold pipelineStep
    cases hc : c.readable
    · simp
    · simp only [Bool.not_true, Bool.false_eq_true, if_false]
      split
      · exact is_duplicate_threshold _ _
      · simp [mark_as_saved, is_duplicate_threshold]

/-- C1 (amended): a candidate whose OCR text is the empty string is never
discarded by L3 — appended to any run of the pipeline it is saved as one
more slide (with empty text), because the similarity of the empty string
against any memory is 0 and a first candidate is accepted unconditionally. -/
theorem empty_text_candidate_retained (cs : List Candidate) :
    ((cs ++ [Candidate.mk true ""]).foldl pipelineStep pipelineInit).saved_count
        = (cs.foldl pipelineStep pipelineInit).saved_count + 1 ∧
    ((cs ++ [Candidate.mk true ""]).foldl pipelineStep pipelineInit).slides
        = (cs.foldl pipelineStep pipelineInit).slides ++ [""] := by
  rw [List.foldl_append]
  have hth : ((cs.foldl pipelineStep pipelineInit).deduper).similarity_threshold
      = 9 / 10 := foldl_pipelineStep_threshold cs pipelineInit
  have hdup : (is_duplicate (cs.foldl pipelineStep pipelineInit).deduper "").1 = false :=
    is_duplicate_empty_not_dup _ (by rw [hth]; norm_num)
  have htext := is_duplicate_text (cs.foldl pipelineStep pipelineInit).deduper ""
  simp only [List.foldl_cons, List.foldl_nil]
  refine ⟨?_, ?_⟩ <;> simp [pipelineStep, hdup, htext, mark_as_saved]

/-- C1 counterexample: a single candidate with empty OCR text is retained
as a slide and produces a one-slide deck, contradicting the claim that it
is discarded and contributes nothing. -/
theorem empty_text_candidate_counterexample :
    (extract_ppt_gpu_pipeline [⟨true, ""⟩]).1.slides = [""] ∧
    (extract_ppt_gpu_pipeline [⟨true, ""⟩]).2 = some [""] := by
  constructor
  · decide
  · decide

theorem foldl_pipelineStep_memory (cs : List Candidate) (st : PipelineState)
    (h : st.deduper.lastSavedText = st.slides.getLast?) :
    ((cs.foldl pipelineStep st).deduper).lastSavedText =
      ((cs.foldl pipelineStep st).slides).getLast? := by
  induction cs generalizing st with
  | nil => exact h
  | cons c rest ih =>
    rw [List.foldl_cons]
    apply ih
    unfold pipelineStep
    cases hc : c.readable
    · simpa using h
    · simp only [Bool.not_true, Bool.false_eq_true, if_false]
      split
      · rename_i hdup
        have hm := is_duplicate_memory st.deduper c.text
        rw [hdup, if_pos rfl] at hm
        simpa [hm] using h
      · simp [mark_as_saved, List.getLast?_concat]

/-- C6: the deduplication memory is overwritten exactly when a candidate is
accepted — `is_duplicate` leaves it unchanged when it reports a duplicate
and sets it to the candidate text otherwise — and therefore, throughout the
pipeline loop, the memory always equals the text of the last kept slide. -/
theorem dedup_memory_anchor_is_last_kept (st : DedupState) (t : String)
    (cs : List Candidate) :
    (((is_duplicate st t).2.2).lastSavedText =
      if (is_duplicate st t).1 then st.lastSavedText else some t) ∧
    ((cs.foldl pipelineStep pipelineInit).deduper).lastSavedText
        = ((cs.foldl pipelineStep pipelineInit).slides).getLast? :=
  ⟨is_duplicate_memory st t, foldl_pipelineStep_memory cs pipelineInit rfl⟩

theorem foldl_pipelineStep_length (cs : List Candidate) (st : PipelineState)
    (h : st.slides.length = st.saved_count) :
    ((cs.foldl pipelineStep st).slides).length =
      (cs.foldl pipelineStep st).saved_count := by
  induction cs generalizing st with
  | nil => exact h
  | cons c rest ih =>
    rw [List.foldl_cons]
    apply ih
    unfold pipelineStep
    cases hc : c.readable
    · simpa using h
    · simp only [Bool.not_true, Bool.false_eq_true, if_false]
      split
      · simpa using h
      · simp [h]

/-- C9: the number of slides in the assembled deck always equals
`saved_count`, the number of candidates retained by the funnel; the
pipeline returns no deliverable exactly when that count is 0, and any
returned deck has exactly that many slides. -/
theorem ppt_slide_count_eq_retained (cs : List Candidate) :
    ((cs.foldl pipelineStep pipelineInit).slides).length
        = (cs.foldl pipelineStep pipelineInit).saved_count ∧
    ((extract_ppt_gpu_pipeline cs).2 = none ↔
      (cs.foldl pipelineStep pipelineInit).saved_count = 0) ∧
    ∀ l, (extract_ppt_gpu_pipeline cs).2 = some l →
      l.length = (cs.foldl pipelineStep pipelineInit).saved_count := by
  have hlen := foldl_pipelineStep_length cs pipelineInit rfl
  refine ⟨hlen, ?_, ?_⟩
  · unfold extract_ppt_gpu_pipeline
    by_cases hz : (cs.foldl pipelineStep pipelineInit).saved_count > 0
    · simp [hz]
      omega
    · simp [hz]
      omega
  · intro l hl
    unfold extract_ppt_gpu_pipeline at hl
    by_cases hz : (cs.foldl pipelineStep pipelineInit).saved_count > 0
    · simp [hz] at hl
      rw [← hl]
      exact hlen
    · simp [hz] at hl

/-- Witness for C9: the theorem applied to the one-candidate run. -/
theorem ppt_slide_count_witness :
    (["a"] : List String).length =
      (([⟨true, "a"⟩] : List Candidate).foldl pipelineStep pipelineInit).saved_count :=
  (ppt_slide_count_eq_retained [⟨true, "a"⟩]).2.2 ["a"] (by decide)

/-! ## Task registry (C10) -/

/-- C10: on a task id absent from the registry, all three mutators return
(no exception is modelled: the functions are total) and leave the registry
unchanged — no entry is created or modified. -/
theorem unknown_task_id_noop (m : TaskRegistry) (task_id : String)
    (progress : Int) (message : Option String) (status : Option TaskStatus)
    (result_url : String) (transcript_url : Option String) (error_msg : String)
    (h : m.lookup task_id = none) :
    update_task_progress m task_id progress message status = m ∧
    complete_task m task_id result_url transcript_url = m ∧
    fail_task m task_id error_msg = m := by
  have hc : containsTask m task_id = false := by
    simp [containsTask, h]
  refine ⟨?_, ?_, ?_⟩ <;>
    simp [update_task_progress, complete_task, fail_task, hc]

/-- Witness for C10: the theorem applied to the empty registry. -/
theorem unknown_task_id_noop_witness :
    update_task_progress [] "job-1" 50 none none = ([] : TaskRegistry) ∧
    complete_task [] "job-1" "u" none = ([] : TaskRegistry) ∧
    fail_task [] "job-1" "oops" = ([] : TaskRegistry) :=
  unknown_task_id_noop [] "job-1" 50 none none "u" none "oops" (by decide)

/-! ## Crop alignment (C7) -/

/-- C7 (amended): every crop path rounds `x, y` (and on the lightweight and
frame-extraction paths also `w, h`) down to the nearest multiple of 2, and
the main pipeline's hardware crop rounds `w, h` down to the nearest
multiple of 16; but only the main pipeline's crop clamps the final `w, h`
to at least 2 — the other two paths pass the rounded values unclamped. -/
theorem crop_alignment_rounding (x y w h : Nat) :
    (align_crop_main x y w h).1 = x - x % 2 ∧
    (align_crop_main x y w h).2.1 = y - y % 2 ∧
    (align_crop_main x y w h).2.2.1 = max 2 (w - w % 16) ∧
    (align_crop_main x y w h).2.2.2 = max 2 (h - h % 16) ∧
    2 ≤ (align_crop_main x y w h).2.2.1 ∧
    2 ≤ (align_crop_main x y w h).2.2.2 ∧
    align_crop_lightweight x y w h = (x - x % 2, y - y % 2, w - w % 2, h - h % 2) ∧
    align_crop_extract_frame x y w h = (x - x % 2, y - y % 2, w - w % 2, h - h % 2) := by
  refine ⟨?_, ?_, ?_, ?_, ?_, ?_, ?_, ?_⟩ <;>
    simp [align_crop_main, align_crop_lightweight, align_crop_extract_frame,
      Prod.ext_iff] <;>
    omega

/-- C7 counterexample: for the ROI `(0, 0, 1, 1)` the lightweight-video
path passes `w = 0` to the crop filter — the claimed clamp to at least 2
does not happen there. -/
theorem crop_alignment_no_clamp_counterexample :
    align_crop_lightweight 0 0 1 1 = (0, 0, 0, 0) ∧
    ¬ 2 ≤ (align_crop_lightweight 0 0 1 1).2.2.1 ∧
    align_crop_extract_frame 0 0 1 1 = (0, 0, 0, 0) := by
  refine ⟨by decide, by decide, by decide⟩

/-! ## ROI locator (C8) -/

theorem findAcceptedContour_eq_find (fa : ℚ) (l : List Contour) :
    findAcceptedContour fa l =
      (l.find? fun c => decide (acceptContour fa c)).map Contour.bbox := by
  induction l with
  | nil => rfl
  | cons c rest ih =>
    by_cases hc : acceptContour fa c
    · simp [findAcceptedContour, List.find?_cons, hc]
    · simp [findAcceptedContour, List.find?_cons, hc, ih]

theorem findAcceptedContour_eq_none_iff (fa : ℚ) (l : List Contour) :
    findAcceptedContour fa l = none ↔ ∀ c ∈ l, ¬ acceptContour fa c := by
  induction l with
  | nil => simp [findAcceptedContour]
  | cons c rest ih =>
    by_cases hc : acceptContour fa c
    · simp [findAcceptedContour, hc]
    · simp [findAcceptedContour, hc, ih]

theorem locate_ppt_region_none_iff (frames : List SampleFrame) :
    locate_ppt_region frames = none ↔
      ∀ f ∈ frames, ∀ c ∈ topFiveContours f, ¬ acceptContour f.frame_area c := by
  induction frames with
  | nil => simp [locate_ppt_region]
  | cons f rest ih =>
    simp only [locate_ppt_region]
    cases hf : findAcceptedContour f.frame_area (topFiveContours f) with
    | none =>
      have hall := (findAcceptedContour_eq_none_iff _ _).mp hf
      simp only [hf]
      constructor
      · intro hrest f' hf'
        rcases List.mem_cons.mp hf' with rfl | hmem
        · exact hall
        · exact (ih.mp hrest) f' hmem
      · intro hallcons
        exact ih.mpr fun f' hf' => hallcons f' (List.mem_cons_of_mem _ hf')
    | some b =>
      simp only []
      constructor
      · intro hcontra
        exact absurd hcontra (by simp)
      · intro hall
        have hnone : findAcceptedContour f.frame_area (topFiveContours f) = none :=
          (findAcceptedContour_eq_none_iff _ _).mpr (hall f (List.mem_cons_self f rest))
        rw [hf] at hnone
        exact absurd hnone (by simp)

/-- C8 (amended): the locator returns the bounding rectangle of the first
contour, among the five largest of the first sample frame that has one,
whose approximation has exactly 4 vertices and whose area covers strictly
more than 10% of the frame area; it returns no ROI exactly when no sampled
frame has such a contour. -/
theorem roi_locator_first_accepted (frames : List SampleFrame) :
    (locate_ppt_region frames =
      frames.findSome? fun f =>
        ((topFiveContours f).find? fun c =>
          decide (acceptContour f.frame_area c)).map Contour.bbox) ∧
    (locate_ppt_region frames = none ↔
      ∀ f ∈ frames, ∀ c ∈ topFiveContours f, ¬ acceptContour f.frame_area c) := by
  refine ⟨?_, locate_ppt_region_none_iff frames⟩
  induction frames with
  | nil => rfl
  | cons f rest ih =>
    simp only [locate_ppt_region, findAcceptedContour_eq_find, List.findSome?_cons]
    cases hf : ((topFiveContours f).find? fun c =>
        decide (acceptContour f.frame_area c)).map Contour.bbox with
    | none => simpa [hf] using ih
    | some b => simp [hf]

/-- C8 counterexample: a contour with exactly 4 vertices covering exactly
10% of the frame area is rejected (the code tests `area_ratio > 0.1`
strictly), so the claimed "at least 10%" acceptance fails at the boundary:
the locator reports failure although a qualifying contour exists. -/
theorem roi_locator_boundary_counterexample :
    locate_ppt_region [⟨100, [⟨10, 4, (0, 0, 5, 2)⟩]⟩] = none ∧
    (⟨10, 4, (0, 0, 5, 2)⟩ : Contour) ∈
      topFiveContours ⟨100, [⟨10, 4, (0, 0, 5, 2)⟩]⟩ ∧
    (10 : ℚ) / 100 ≥ 1 / 10 := by
  refine ⟨?_, ?_, by norm_num⟩
  · have hnc : ¬ acceptContour 100 ⟨10, 4, (0, 0, 5, 2)⟩ := by
      simp only [acceptContour, not_and]
      intro _
      norm_num
    simp [locate_ppt_region, topFiveContours, sortByAreaDesc, insertByAreaDesc,
      findAcceptedContour, hnc]
  · simp [topFiveContours, sortByAreaDesc, insertByAreaDesc]

/-! ## Progress reports (C5) -/

theorem l3_progress_percent_one : l3_progress_percent 1 = 90 := by
  unfold l3_progress_percent
  norm_num

theorem l3_progress_percent_two : l3_progress_percent 2 = 90 := by
  unfold l3_progress_percent
  norm_num

theorem funnel_progress_percent_fifty : funnel_progress_percent 50 = 50 := by
  unfold funnel_progress_percent
  decide

theorem pipeline_percent_trace_example :
    pipeline_percent_trace
        [FunnelEvent.candidate true "a", FunnelEvent.progress 50,
          FunnelEvent.candidate true "b"]
      = [90, 50, 90] := by
  simp [pipeline_percent_trace, l3_progress_percent_one, l3_progress_percent_two,
    funnel_progress_percent_fifty]

/-- C5: evaluation of the modelled percent trace on a run with both
modules enabled and two readable candidates around one L1/L2 callback at
percent 50.  The slide-extraction stage reports 90 (the L3 update
`70 + int((n / max(n,1)) * 20)` always evaluates to 90), which exceeds the
85 boundary documented for the slide band, and the trace then falls back
to 50, so the reported percents are not monotone non-decreasing. -/
theorem progress_trace_exceeds_slide_band :
    process_percent_trace true true
        [FunnelEvent.candidate true "a", FunnelEvent.progress 50,
          FunnelEvent.candidate true "b"]
      = [5, 10, 90, 50, 90, 90] ∧
    ¬ List.Chain' (· ≤ ·) (process_percent_trace true true
        [FunnelEvent.candidate true "a", FunnelEvent.progress 50,
          FunnelEvent.candidate true "b"]) ∧
    (90 : Int) ∈ pipeline_percent_trace
        [FunnelEvent.candidate true "a", FunnelEvent.progress 50,
          FunnelEvent.candidate true "b"] ∧
    (85 : Int) < 90 := by
  have htr : process_percent_trace true true
      [FunnelEvent.candidate true "a", FunnelEvent.progress 50,
        FunnelEvent.candidate true "b"]
      = [5, 10, 90, 50, 90, 90] := by
    simp [process_percent_trace, pipeline_percent_trace_example]
  refine ⟨htr, ?_, ?_, by norm_num⟩
  · rw [htr]
    simp only [List.chain'_cons, List.chain'_singleton]
    omega
  · rw [pipeline_percent_trace_example]
    simp

/-! ## Scene scan invariants (C2, C3) -/

theorem shotStep_out_cases (mad : α → α → ℚ) (sharp : α → ℚ)
    (dth minDur : ℚ) (st : ScanState α) (item : Nat × ℚ × α) :
    (shotStep mad sharp dth minDur st item).out = st.out ∨
    ((shotStep mad sharp dth minDur st item).out =
        st.out ++ [⟨st.scene_best_ts, st.scene_best_frame_idx,
          st.scene_best_sharpness, st.scene_start_ts, item.2.1⟩] ∧
      minDur ≤ item.2.1 - st.scene_start_ts) := by
  unfold shotStep
  dsimp only
  split
  · left; rfl
  · split
    · split
      · rename_i hdur
        exact Or.inr ⟨rfl, hdur⟩
      · left; rfl
    · split
      · left; rfl
      · left; rfl

theorem shotStep_best_cases (mad : α → α → ℚ) (sharp : α → ℚ)
    (dth minDur : ℚ) (st : ScanState α) (item : Nat × ℚ × α) :
    (shotStep mad sharp dth minDur st item).scene_best_ts = item.2.1 ∨
    ((shotStep mad sharp dth minDur st item).scene_best_ts = st.scene_best_ts ∧
      (shotStep mad sharp dth minDur st item).out = st.out) := by
  unfold shotStep
  dsimp only
  split
  · left; rfl
  · split
    · split
      · left; rfl
      · left; rfl
    · split
      · left; rfl
      · exact Or.inr ⟨rfl, rfl⟩

theorem foldl_shotStep_duration (mad : α → α → ℚ) (sharp : α → ℚ)
    (dth minDur : ℚ) (l : List (Nat × ℚ × α)) :
    ∀ st : ScanState α,
      (∀ s ∈ st.out, minDur ≤ s.scene_end_ts - s.scene_start_ts) →
      ∀ s ∈ (l.foldl (shotStep mad sharp dth minDur) st).out,
        minDur ≤ s.scene_end_ts - s.scene_start_ts := by
  induction l with
  | nil =>
    intro st h
    simpa using h
  | cons x rest ih =>
    intro st h
    rw [List.foldl_cons]
    apply ih
    rcases shotStep_out_cases mad sharp dth minDur st x with hout | ⟨hout, hdur⟩
    · rw [hout]; exact h
    · rw [hout]
      intro s hs
      rcases List.mem_append.mp hs with hmem | hmem
      · exact h s hmem
      · rw [List.mem_singleton] at hmem
        subst hmem
        simpa using hdur

/-- C2 (amended): every `BestShot` emitted at a scene switch satisfies
`scene_end_ts - scene_start_ts ≥ min_scene_duration`; the terminal
`BestShot` satisfies it whenever the decoder end position exceeds the
scene start, and otherwise (when the duration test falls back to the
metadata duration) the emitted shot is degenerate with
`scene_end_ts ≤ scene_start_ts`. -/
theorem best_shot_duration_or_degenerate (mad : α → α → ℚ) (sharp : α → ℚ)
    (dth minDur : ℚ) (k : Nat) (frames : List (ℚ × α)) (final_ts duration : ℚ) :
    ∀ s ∈ extract_best_shots mad sharp dth minDur k frames final_ts duration,
      minDur ≤ s.scene_end_ts - s.scene_start_ts ∨ s.scene_end_ts ≤ s.scene_start_ts := by
  intro s hs
  unfold extract_best_shots closeTerminalScene at hs
  set st := (sampledFrames α frames k).foldl (shotStep mad sharp dth minDur)
    (scanInit α) with hst
  have hout : ∀ s ∈ st.out, minDur ≤ s.scene_end_ts - s.scene_start_ts := by
    apply foldl_shotStep_duration
    intro s0 hs0
    simp [scanInit] at hs0
  by_cases hterm : (if final_ts > st.scene_start_ts then final_ts - st.scene_start_ts
      else duration - st.scene_start_ts) ≥ minDur
  · rw [if_pos hterm] at hs
    rcases List.mem_append.mp hs with hmem | hmem
    · exact Or.inl (hout s hmem)
    · rw [List.mem_singleton] at hmem
      subst hmem
      by_cases hgt : final_ts > st.scene_start_ts
      · rw [if_pos hgt] at hterm
        exact Or.inl (by simpa using hterm)
      · exact Or.inr (by simpa using le_of_not_lt hgt)
  · rw [if_neg hterm] at hs
    exact Or.inl (hout s hs)

theorem extract_best_shots_single_frame :
    extract_best_shots (fun (_ _ : Unit) => 0) (fun _ => 0) (12 / 100) (3 / 2) 1
        [((0 : ℚ), ())] 0 10
      = [⟨0, 0, 0, 0, 0⟩] := by
  have hsf : sampledFrames Unit [((0 : ℚ), ())] 1 = [(0, (0 : ℚ), ())] := rfl
  have hstep : shotStep (fun (_ _ : Unit) => 0) (fun _ => 0) (12 / 100) (3 / 2)
      (scanInit Unit) (0, (0 : ℚ), ()) = ⟨some (), 0, 0, 0, 0, []⟩ := rfl
  unfold extract_best_shots
  rw [hsf, List.foldl_cons, hstep, List.foldl_nil]
  unfold closeTerminalScene
  norm_num

/-- C2 counterexample: a one-frame stream whose decoder end position reads
0 while the metadata duration is 10 s emits a terminal `BestShot` with
`scene_end_ts - scene_start_ts = 0 < min_scene_duration = 1.5` (the
duration test used `duration - scene_start_ts` instead). -/
theorem terminal_scene_duration_counterexample :
    (BestShot.mk 0 0 0 0 0) ∈ extract_best_shots (fun (_ _ : Unit) => 0) (fun _ => 0)
        (12 / 100) (3 / 2) 1 [((0 : ℚ), ())] 0 10 ∧
      (BestShot.mk 0 0 0 0 0).scene_end_ts - (BestShot.mk 0 0 0 0 0).scene_start_ts
        < 3 / 2 := by
  refine ⟨?_, by norm_num⟩
  rw [extract_best_shots_single_frame]
  exact List.mem_singleton_self _

/-- Witness for C2 (amended): the theorem applied to the one-frame stream
and its emitted terminal shot. -/
theorem best_shot_duration_witness :
    (3 / 2 : ℚ) ≤ (BestShot.mk 0 0 0 0 0).scene_end_ts -
        (BestShot.mk 0 0 0 0 0).scene_start_ts ∨
      (BestShot.mk 0 0 0 0 0).scene_end_ts ≤ (BestShot.mk 0 0 0 0 0).scene_start_ts :=
  best_shot_duration_or_degenerate (fun (_ _ : Unit) => 0) (fun _ => 0) (12 / 100)
    (3 / 2) 1 [((0 : ℚ), ())] 0 10 (BestShot.mk 0 0 0 0 0)
    (by rw [extract_best_shots_single_frame]; exact List.mem_singleton_self _)

theorem foldl_shotStep_pairwise (mad : α → α → ℚ) (sharp : α → ℚ)
    (dth minDur : ℚ) (l : List (Nat × ℚ × α)) :
    ∀ st : ScanState α,
      List.Pairwise (· < ·) (st.out.map BestShot.timestamp) →
      (∀ s ∈ st.out, s.timestamp < st.scene_best_ts) →
      (∀ x ∈ l, st.scene_best_ts < x.2.1) →
      List.Pairwise (· < ·) (l.map fun x => x.2.1) →
      List.Pairwise (· < ·)
          ((l.foldl (shotStep mad sharp dth minDur) st).out.map BestShot.timestamp) ∧
        ∀ s ∈ (l.foldl (shotStep mad sharp dth minDur) st).out,
          s.timestamp < (l.foldl (shotStep mad sharp dth minDur) st).scene_best_ts := by
  induction l with
  | nil =>
    intro st h1 h2 _ _
    exact ⟨h1, h2⟩
  | cons x rest ih =>
    intro st h1 h2 h3 h4
    rw [List.foldl_cons]
    have hx : st.scene_best_ts < x.2.1 := h3 x (List.mem_cons_self x rest)
    rw [List.map_cons] at h4
    have h4' := List.pairwise_cons.mp h4
    have hrest : ∀ y ∈ rest, x.2.1 < y.2.1 := fun y hy =>
      h4'.1 y.2.1 (List.mem_map_of_mem _ hy)
    have hout2 : ∀ s ∈ (shotStep mad sharp dth minDur st x).out,
        s.timestamp < x.2.1 := by
      rcases shotStep_out_cases mad sharp dth minDur st x with hout | ⟨hout, _⟩
      · rw [hout]
        exact fun s hs => lt_trans (h2 s hs) hx
      · rw [hout]
        intro s hs
        rcases List.mem_append.mp hs with hmem | hmem
        · exact lt_trans (h2 s hmem) hx
        · rw [List.mem_singleton] at hmem
          subst hmem
          simpa using hx
    apply ih
    · -- pairwise of the new out
      rcases shotStep_out_cases mad sharp dth minDur st x with hout | ⟨hout, _⟩
      · rw [hout]; exact h1
      · rw [hout, List.map_append]
        apply List.pairwise_append.mpr
        refine ⟨h1, List.pairwise_singleton _ _, ?_⟩
        intro a ha b hb
        rw [List.mem_map] at ha
        rcases ha with ⟨s0, hs0, rfl⟩
        simp only [List.map_cons, List.map_nil, List.mem_singleton] at hb
        subst hb
        exact h2 s0 hs0
    · -- every element of the new out precedes the new champion timestamp
      rcases shotStep_best_cases mad sharp dth minDur st x with hbest | ⟨hbest, houtsame⟩
      · rw [hbest]
        exact hout2
      · rw [hbest, houtsame]
        exact h2
    · -- all remaining timestamps exceed the new champion timestamp
      rcases shotStep_best_cases mad sharp dth minDur st x with hbest | ⟨hbest, _⟩
      · rw [hbest]
        exact hrest
      · rw [hbest]
        exact fun y hy => h3 y (List.mem_cons_of_mem _ hy)
    · exact h4'.2

theorem closeTerminalScene_pairwise (minDur final_ts duration : ℚ)
    (st : ScanState α)
    (h1 : List.Pairwise (· < ·) (st.out.map BestShot.timestamp))
    (h2 : ∀ s ∈ st.out, s.timestamp < st.scene_best_ts) :
    List.Pairwise (· < ·)
      ((closeTerminalScene minDur final_ts duration st).map BestShot.timestamp) := by
  unfold closeTerminalScene
  by_cases hc : (if final_ts > st.scene_start_ts then final_ts - st.scene_start_ts
      else duration - st.scene_start_ts) ≥ minDur
  · rw [if_pos hc, List.map_append]
    apply List.pairwise_append.mpr
    refine ⟨h1, List.pairwise_singleton _ _, ?_⟩
    intro a ha b hb
    rw [List.mem_map] at ha
    rcases ha with ⟨s0, hs0, rfl⟩
    simp only [List.map_cons, List.map_nil, List.mem_singleton] at hb
    subst hb
    exact h2 s0 hs0
  · rw [if_neg hc]
    exact h1

/-- C3: when the decoder-reported timestamps of the frame stream are
strictly increasing, the timestamps of the emitted `BestShot`s are
strictly increasing, and so is every subsequence of them — in particular
the timestamps of the slides retained after the L3 deduplication, which
keeps a sublist of the `BestShot` stream. -/
theorem slide_timestamps_strictly_increasing (mad : α → α → ℚ) (sharp : α → ℚ)
    (dth minDur : ℚ) (k : Nat) (frames : List (ℚ × α)) (final_ts duration : ℚ)
    (h : List.Pairwise (· < ·) (frames.map Prod.fst)) :
    List.Pairwise (· < ·)
        ((extract_best_shots mad sharp dth minDur k frames final_ts duration).map
          BestShot.timestamp) ∧
      ∀ kept : List BestShot,
        kept.Sublist (extract_best_shots mad sharp dth minDur k frames final_ts duration) →
        List.Pairwise (· < ·) (kept.map BestShot.timestamp) := by
  have hsp : List.Pairwise (· < ·)
      ((sampledFrames α frames k).map fun x => x.2.1) := by
    have hsub : (sampledFrames α frames k).Sublist frames.enum :=
      List.filter_sublist _
    have hsub2 := hsub.map (fun x : Nat × ℚ × α => x.2.1)
    have heq : frames.enum.map (fun x : Nat × ℚ × α => x.2.1)
        = frames.map Prod.fst := by
      have hfun : (fun x : Nat × ℚ × α => x.2.1) = (Prod.fst ∘ Prod.snd) := rfl
      rw [hfun, ← List.map_map, List.enum_map_snd]
    rw [heq] at hsub2
    exact List.Pairwise.sublist hsub2 h
  have hfirst : List.Pairwise (· < ·)
      ((extract_best_shots mad sharp dth minDur k frames final_ts duration).map
        BestShot.timestamp) := by
    unfold extract_best_shots
    cases hsf : sampledFrames α frames k with
    | nil =>
      rw [List.foldl_nil]
      apply closeTerminalScene_pairwise
      · simp [scanInit]
      · simp [scanInit]
    | cons x rest =>
      rw [hsf] at hsp
      rw [List.foldl_cons]
      have hstep : shotStep mad sharp dth minDur (scanInit α) x
          = ⟨some x.2.2, 0, x.2.1, x.1, sharp x.2.2, []⟩ := rfl
      rw [hstep]
      rw [List.map_cons] at hsp
      have hsp' := List.pairwise_cons.mp hsp
      have hfold := foldl_shotStep_pairwise mad sharp dth minDur rest
        ⟨some x.2.2, 0, x.2.1, x.1, sharp x.2.2, []⟩
        (by simp) (by simp)
        (fun y hy => hsp'.1 y.2.1 (List.mem_map_of_mem _ hy))
        hsp'.2
      exact closeTerminalScene_pairwise minDur final_ts duration _ hfold.1 hfold.2
  exact ⟨hfirst, fun kept hk =>
    List.Pairwise.sublist (hk.map BestShot.timestamp) hfirst⟩

/-- Witness for C3: the theorem applied to a concrete two-frame stream. -/
theorem slide_timestamps_witness :
    List.Pairwise (· < ·)
      ((extract_best_shots (fun (_ _ : Unit) => 0) (fun _ => 0) (12 / 100) (3 / 2) 1
          [((0 : ℚ), ()), ((1 : ℚ), ())] 0 10).map BestShot.timestamp) :=
  (slide_timestamps_strictly_increasing (fun (_ _ : Unit) => 0) (fun _ => 0)
    (12 / 100) (3 / 2) 1 [((0 : ℚ), ()), ((1 : ℚ), ())] 0 10
    (by norm_num)).1

end Audio2Note
